import Mathlib

/-
Verification of the data-access layer of the Student Information Portal
(src/app.py): the Record Store primitives load_students / save_students and
the Record Service operations add_student / get_all_students /
search_student_by_roll, together with the serialization format produced by
json.dump(..., indent=4, ensure_ascii=False).

The persisted file is modelled at the granularity the source distinguishes:
it is either absent, holds a parsed JSON list, holds JSON that parses to a
non-list value, holds unparseable text, or is unreadable for some other
reason. List elements are modelled as JSON objects with text-valued fields
(an association list preserving key insertion order, mirroring the dicts the
app builds and json.dump writes) or an opaque non-object value, so that the
KeyError / TypeError paths of the subscript student["roll_no"] are
representable.
-/

/-- One element of the stored JSON list: an object with text-valued fields in
insertion order, or some non-object JSON value (which the app never writes on
its own but could be present in a hand-edited file). -/
inductive JEntry where
  | obj (fields : List (String × String))
  | nonObj
deriving DecidableEq, Repr

/-- Python subscript student["roll_no"]: returns the value when the entry is
an object that has the key, raises KeyError when the key is missing and
TypeError when the entry is not an object. Exceptions are modelled as the
error branch of Except, carrying the exception text. -/
def JEntry.getRoll : JEntry → Except String String
  | JEntry.obj fields =>
    match fields.lookup "roll_no" with
    | some v => Except.ok v
    | none => Except.error "KeyError: roll_no"
  | JEntry.nonObj => Except.error "TypeError: entry is not an object"

/-- The roll number of an entry when the subscript succeeds, none when it
would raise. -/
def JEntry.rollOf? (e : JEntry) : Option String :=
  match e.getRoll with
  | Except.ok r => some r
  | Except.error _ => none

/-- The state of the students.json storage location, at the granularity
load_students distinguishes: missing file, a file whose content parses to a
JSON list, a file whose content parses to a non-list JSON value (the
isinstance check fails), a file whose content is not valid JSON
(json.JSONDecodeError), or a file unreadable for any other reason
(permissions, I/O fault). -/
inductive FileContent where
  | absent
  | jsonList (entries : List JEntry)
  | jsonNonList
  | malformed
  | unreadable
deriving DecidableEq, Repr

/-- load_students (src/app.py lines 109-149): returns the parsed list when
the file exists and holds a JSON list; returns the empty list when the file
is missing, when parsing fails, when the parsed value is not a list, or on
any other read error. Every failure branch is caught inside the function, so
the model is a total function into a list. -/
def load_students : FileContent → List JEntry
  | FileContent.absent => []
  | FileContent.jsonList entries => entries
  | FileContent.jsonNonList => []
  | FileContent.malformed => []
  | FileContent.unreadable => []

/-- save_students (src/app.py lines 152-174): opens the file for writing and
dumps the whole list, returning true on success; returns false on IOError or
any other exception. Whether the environment accepts the write is the
explicit writable flag; on failure the stored state is left as it was. -/
def save_students (writable : Bool) (students_list : List JEntry)
    (fs : FileContent) : Bool × FileContent :=
  if writable then (true, FileContent.jsonList students_list)
  else (false, fs)

/-- The duplicate-check loop of add_student (src/app.py lines 195-197):
iterate over the loaded entries, evaluating student["roll_no"] == roll_no;
returns ok true at the first match, ok false when the loop completes, and
propagates the exception when a subscript raises. -/
def dupCheck (roll_no : String) : List JEntry → Except String Bool
  | [] => Except.ok false
  | e :: rest =>
    match e.getRoll with
    | Except.error m => Except.error m
    | Except.ok r => if r = roll_no then Except.ok true else dupCheck roll_no rest

/-- add_student (src/app.py lines 177-217): load the current list, reject a
duplicate roll number, otherwise append the new four-field dict and save;
the surrounding try converts any exception raised by the loop into a
(false, "Error adding student: ...") result. Returns the (success, message)
pair together with the resulting storage state. -/
def add_student (writable : Bool) (name roll_no department email : String)
    (fs : FileContent) : (Bool × String) × FileContent :=
  let students := load_students fs
  match dupCheck roll_no students with
  | Except.error m => ((false, "Error adding student: " ++ m), fs)
  | Except.ok true =>
      ((false, "Student with roll number " ++ roll_no ++ " already exists!"), fs)
  | Except.ok false =>
      let new_student : JEntry :=
        JEntry.obj [("name", name), ("roll_no", roll_no),
                    ("department", department), ("email", email)]
      let saved := save_students writable (students ++ [new_student]) fs
      if saved.1 then ((true, "Student added successfully!"), saved.2)
      else ((false, "Error saving student data."), saved.2)

/-- get_all_students (src/app.py lines 220-227): returns load_students()
verbatim. -/
def get_all_students (fs : FileContent) : List JEntry :=
  load_students fs

/-- The search loop of search_student_by_roll (src/app.py lines 243-247):
linear scan returning the first entry whose roll_no equals the argument,
none when the loop completes without a match, and the exception when a
subscript raises. -/
def searchLoop (roll_no : String) : List JEntry → Except String (Option JEntry)
  | [] => Except.ok none
  | e :: rest =>
    match e.getRoll with
    | Except.error m => Except.error m
    | Except.ok r =>
        if r = roll_no then Except.ok (some e) else searchLoop roll_no rest

/-- search_student_by_roll (src/app.py lines 230-251): runs the scan and
converts any exception raised inside the try block into a None result. -/
def search_student_by_roll (roll_no : String) (fs : FileContent) : Option JEntry :=
  match searchLoop roll_no (load_students fs) with
  | Except.ok res => res
  | Except.error _ => none

/-- Whitespace as the Python str.strip() recognises it, restricted to the
ASCII whitespace characters. -/
def isSpaceChar (c : Char) : Bool :=
  c == ' ' || c == '\t' || c == '\n' || c == '\r' ||
    c.toNat == 11 || c.toNat == 12

/-- The Python str.strip(): remove leading and trailing whitespace. -/
def pyStrip (s : String) : String :=
  String.mk (((s.toList.dropWhile isSpaceChar).reverse.dropWhile
    isSpaceChar).reverse)

/-- The POST branch of the add route (src/app.py lines 274-294): strips the
four form fields, rejects the request with "All fields are required!" when
any stripped field is empty (without touching storage), and otherwise calls
add_student with the stripped values. The rendered page is abstracted to the
(success, flash-message) pair. -/
def add_student_page_post (writable : Bool) (name roll_no department email : String)
    (fs : FileContent) : (Bool × String) × FileContent :=
  let n := pyStrip name
  let r := pyStrip roll_no
  let d := pyStrip department
  let e := pyStrip email
  if n = "" ∨ r = "" ∨ d = "" ∨ e = "" then
    ((false, "All fields are required!"), fs)
  else
    add_student writable n r d e fs

/-- The multiset of roll numbers readable from a list of entries, in order. -/
def rollsOf (xs : List JEntry) : List String :=
  xs.filterMap JEntry.rollOf?

/-- The operations the Record Service exposes to the routes. -/
inductive Op where
  | add (name roll_no department email : String)
  | list_all
  | find_by_roll (roll_no : String)

/-- Effect of one service operation on the stored state. get_all_students and
search_student_by_roll only call load_students and perform no write in the
source, so they leave the state unchanged; add_student may rewrite the file. -/
def runOp (writable : Bool) (op : Op) (fs : FileContent) : FileContent :=
  match op with
  | Op.add n r d e => (add_student writable n r d e fs).2
  | Op.list_all => fs
  | Op.find_by_roll _ => fs

/-- One hexadecimal digit, lower case, as the Python \uXXXX escapes use. -/
def hexDigit (n : Nat) : Char :=
  if n < 10 then Char.ofNat (48 + n) else Char.ofNat (87 + n)

/-- Four-digit lower-case hexadecimal rendering of a code point below 0x10000. -/
def hex4 (n : Nat) : String :=
  String.mk [hexDigit (n / 4096 % 16), hexDigit (n / 256 % 16),
             hexDigit (n / 16 % 16), hexDigit (n % 16)]

/-- Per-character escaping of the Python json.dump with ensure_ascii=False:
backslash, double quote and the named control characters get two-character
escapes, other characters below 0x20 get \uXXXX, and every other character
(in particular every non-ASCII character) is emitted literally. -/
def pyEscapeChar (c : Char) : String :=
  if c = '"' then "\\\""
  else if c = '\\' then "\\\\"
  else if c = '\n' then "\\n"
  else if c = '\r' then "\\r"
  else if c = '\t' then "\\t"
  else if c.toNat = 8 then "\\b"
  else if c.toNat = 12 then "\\f"
  else if c.toNat < 32 then "\\u" ++ hex4 c.toNat
  else String.singleton c

/-- A JSON string literal as json.dump writes it with ensure_ascii=False. -/
def pyQuote (s : String) : String :=
  "\"" ++ String.join (s.toList.map pyEscapeChar) ++ "\""

/-- One key-value line of an object nested one level inside the dumped list,
at indent 4: eight spaces, quoted key, colon-space, quoted value. -/
def dumpField (kv : String × String) : String :=
  "        " ++ pyQuote kv.1 ++ ": " ++ pyQuote kv.2

/-- One object of the dumped list as json.dump(indent=4) renders it, as a
list item at indent 4. -/
def dumpObjItem (fields : List (String × String)) : String :=
  match fields with
  | [] => "    \x7b\x7d"
  | _ => "    \x7b\n" ++ String.intercalate ",\n" (fields.map dumpField) ++ "\n    \x7d"

/-- Serialization of one stored entry; the abstract non-object placeholder
has no determinate rendering, so it maps to none. -/
def dumpEntry : JEntry → Option String
  | JEntry.obj fields => some (dumpObjItem fields)
  | JEntry.nonObj => none

/-- json.dump(students_list, file, indent=4, ensure_ascii=False) for a list
of objects with text fields (the only shape the app writes on its own). -/
def json_dump (entries : List JEntry) : Option String :=
  match entries.mapM dumpEntry with
  | none => none
  | some [] => some "[]"
  | some items => some ("[\n" ++ String.intercalate ",\n" items ++ "\n]")

/-- Sample record used by witnesses: Ann / R1 / CS. -/
def annR1 : JEntry :=
  JEntry.obj [("name", "Ann"), ("roll_no", "R1"),
              ("department", "CS"), ("email", "a@x.com")]

/-- Sample record used by witnesses: Bob / R2 / EE. -/
def bobR2 : JEntry :=
  JEntry.obj [("name", "Bob"), ("roll_no", "R2"),
              ("department", "EE"), ("email", "b@x.com")]

/-- When the modelled subscript succeeds, rollOf? reads it back. -/
theorem rollOf_of_getRoll (e : JEntry) (r : String) (h : e.getRoll = Except.ok r) :
    e.rollOf? = some r := by
  unfold JEntry.rollOf?
  rw [h]

/-- When rollOf? is defined, the modelled subscript succeeds with that value. -/
theorem getRoll_eq_ok (e : JEntry) (r : String) (h : e.rollOf? = some r) :
    e.getRoll = Except.ok r := by
  unfold JEntry.rollOf? at h
  cases hg : e.getRoll with
  | ok v =>
    rw [hg] at h
    simp only [Option.some.injEq] at h
    rw [h]
  | error m =>
    rw [hg] at h
    simp at h

/-- The duplicate-check loop completes with false on a list whose entries all
carry a roll number different from the one sought. -/
theorem dupCheck_ok_false (roll : String) :
    ∀ xs : List JEntry,
      (∀ p ∈ xs, p.rollOf? ≠ none ∧ p.rollOf? ≠ some roll) →
      dupCheck roll xs = Except.ok false := by
  intro xs
  induction xs with
  | nil => intro _; rfl
  | cons a t ih =>
    intro h
    obtain ⟨h1, h2⟩ := h a (List.mem_cons_self a t)
    obtain ⟨r, hr⟩ := Option.ne_none_iff_exists'.mp h1
    have hg := getRoll_eq_ok a r hr
    have hne : r ≠ roll := fun hrr => h2 (hrr ▸ hr)
    simp only [dupCheck, hg, if_neg hne]
    exact ih fun p hp => h p (List.mem_cons_of_mem a hp)

/-- The duplicate-check loop reports true when every entry carries a roll
number and some entry carries the one sought. -/
theorem dupCheck_ok_true (roll : String) :
    ∀ xs : List JEntry,
      (∀ p ∈ xs, p.rollOf? ≠ none) →
      (∃ p ∈ xs, p.rollOf? = some roll) →
      dupCheck roll xs = Except.ok true := by
  intro xs
  induction xs with
  | nil =>
    intro _ hex
    obtain ⟨p, hp, _⟩ := hex
    exact absurd hp (List.not_mem_nil p)
  | cons a t ih =>
    intro hall hex
    obtain ⟨r, hr⟩ := Option.ne_none_iff_exists'.mp (hall a (List.mem_cons_self a t))
    have hg := getRoll_eq_ok a r hr
    by_cases hrr : r = roll
    · simp only [dupCheck, hg, if_pos hrr]
    · simp only [dupCheck, hg, if_neg hrr]
      apply ih (fun p hp => hall p (List.mem_cons_of_mem a hp))
      obtain ⟨p, hp, hproll⟩ := hex
      rcases List.mem_cons.mp hp with hpa | hpt
      · subst hpa
        rw [hr] at hproll
        exact absurd (Option.some.inj hproll) hrr
      · exact ⟨p, hpt, hproll⟩

/-- When the duplicate-check loop completes with false, every entry of the
list carried a roll number different from the one sought. -/
theorem dupCheck_false_sound (roll : String) :
    ∀ xs : List JEntry, dupCheck roll xs = Except.ok false →
      ∀ p ∈ xs, p.rollOf? ≠ none ∧ p.rollOf? ≠ some roll := by
  intro xs
  induction xs with
  | nil =>
    intro _ p hp
    exact absurd hp (List.not_mem_nil p)
  | cons a t ih =>
    intro h p hp
    cases hg : a.getRoll with
    | error m =>
      simp only [dupCheck, hg] at h
      exact absurd h (by simp)
    | ok r =>
      simp only [dupCheck, hg] at h
      by_cases hrr : r = roll
      · rw [if_pos hrr] at h
        simp at h
      · rw [if_neg hrr] at h
        rcases List.mem_cons.mp hp with hpa | hpt
        · subst hpa
          refine ⟨?_, ?_⟩
          · rw [rollOf_of_getRoll p r hg]
            exact Option.some_ne_none r
          · rw [rollOf_of_getRoll p r hg]
            intro hs
            exact hrr (Option.some.inj hs)
        · exact ih h p hpt

/-- The search loop completes with none on a list whose entries all carry a
roll number different from the one sought. -/
theorem searchLoop_ok_none (roll : String) :
    ∀ xs : List JEntry,
      (∀ p ∈ xs, p.rollOf? ≠ none ∧ p.rollOf? ≠ some roll) →
      searchLoop roll xs = Except.ok none := by
  intro xs
  induction xs with
  | nil => intro _; rfl
  | cons a t ih =>
    intro h
    obtain ⟨h1, h2⟩ := h a (List.mem_cons_self a t)
    obtain ⟨r, hr⟩ := Option.ne_none_iff_exists'.mp h1
    have hg := getRoll_eq_ok a r hr
    have hne : r ≠ roll := fun hrr => h2 (hrr ▸ hr)
    simp only [searchLoop, hg, if_neg hne]
    exact ih fun p hp => h p (List.mem_cons_of_mem a hp)

/-- The search loop returns the first entry whose roll number matches, when
every earlier entry carries a different roll number. -/
theorem searchLoop_first (roll : String) (e : JEntry) :
    ∀ pre : List JEntry,
      (∀ p ∈ pre, p.rollOf? ≠ none ∧ p.rollOf? ≠ some roll) →
      e.rollOf? = some roll →
      ∀ post : List JEntry,
        searchLoop roll (pre ++ e :: post) = Except.ok (some e) := by
  intro pre
  induction pre with
  | nil =>
    intro _ he post
    have hg := getRoll_eq_ok e roll he
    simp [searchLoop, hg]
  | cons a t ih =>
    intro hpre he post
    obtain ⟨h1, h2⟩ := hpre a (List.mem_cons_self a t)
    obtain ⟨r, hr⟩ := Option.ne_none_iff_exists'.mp h1
    have hg := getRoll_eq_ok a r hr
    have hne : r ≠ roll := fun hrr => h2 (hrr ▸ hr)
    rw [List.cons_append]
    simp only [searchLoop, hg, if_neg hne]
    exact ih (fun p hp => hpre p (List.mem_cons_of_mem a hp)) he post

/-- The search loop raises when it reaches an entry whose subscript raises
before any match. -/
theorem searchLoop_error (roll : String) (e : JEntry) :
    ∀ pre : List JEntry,
      (∀ p ∈ pre, p.rollOf? ≠ none ∧ p.rollOf? ≠ some roll) →
      e.rollOf? = none →
      ∀ post : List JEntry,
        ∃ m, searchLoop roll (pre ++ e :: post) = Except.error m := by
  intro pre
  induction pre with
  | nil =>
    intro _ he post
    unfold JEntry.rollOf? at he
    cases hg : e.getRoll with
    | ok v =>
      rw [hg] at he
      simp at he
    | error m =>
      refine ⟨m, ?_⟩
      simp [searchLoop, hg]
  | cons a t ih =>
    intro hpre he post
    obtain ⟨h1, h2⟩ := hpre a (List.mem_cons_self a t)
    obtain ⟨r, hr⟩ := Option.ne_none_iff_exists'.mp h1
    have hg := getRoll_eq_ok a r hr
    have hne : r ≠ roll := fun hrr => h2 (hrr ▸ hr)
    obtain ⟨m, hm⟩ := ih (fun p hp => hpre p (List.mem_cons_of_mem a hp)) he post
    refine ⟨m, ?_⟩
    rw [List.cons_append]
    simp only [searchLoop, hg, if_neg hne]
    exact hm

/-- Claim C3: for every collection X, save(X) followed by load() returns a
sequence equal to X in content and order. The writable flag is true: the
round trip is about the stored representation, in an environment where the
write is accepted. -/
theorem spec_C3_save_load_round_trip (X : List JEntry) (fs : FileContent) :
    (save_students true X fs).1 = true ∧
    load_students (save_students true X fs).2 = X :=
  ⟨rfl, rfl⟩

/-- Claim C5: load_students is a total function (nothing propagates to the
caller) and returns the empty list on a missing file, on unparseable
content, on content that parses to a non-list, and on any other read
failure. -/
theorem spec_C5_load_total_fail_soft :
    load_students FileContent.absent = [] ∧
    load_students FileContent.malformed = [] ∧
    load_students FileContent.jsonNonList = [] ∧
    load_students FileContent.unreadable = [] :=
  ⟨rfl, rfl, rfl, rfl⟩

/-- Claim C7: save_students overwrites the whole persisted representation
with the given collection and returns true when the write is accepted, and
returns false (never raises: the model is a total function) on any write
failure. -/
theorem spec_C7_save_overwrite_or_false (X : List JEntry) (fs : FileContent) :
    save_students true X fs = (true, FileContent.jsonList X) ∧
    (save_students false X fs).1 = false :=
  ⟨rfl, rfl⟩

/-- Claim C9: get_all_students returns exactly load_students of the current
state, with no filtering, reordering or transformation, and on an absent
store it returns the empty list. -/
theorem spec_C9_list_all_verbatim (fs : FileContent) :
    get_all_students fs = load_students fs ∧
    get_all_students FileContent.absent = [] :=
  ⟨rfl, rfl⟩

/-- Claim C1: for every roll_no already present in the stored collection
(whose entries all carry readable roll numbers), add_student returns failure
with the duplicate message and leaves the stored state unchanged, so no save
is performed. -/
theorem spec_C1_duplicate_add_rejected (writable : Bool)
    (name department email roll_no : String) (fs : FileContent)
    (hall : ∀ p ∈ load_students fs, p.rollOf? ≠ none)
    (hmem : ∃ p ∈ load_students fs, p.rollOf? = some roll_no) :
    add_student writable name roll_no department email fs =
      ((false, "Student with roll number " ++ roll_no ++ " already exists!"), fs) := by
  have hdc := dupCheck_ok_true roll_no (load_students fs) hall hmem
  simp [add_student, hdc]

/-- Witness for C1: adding roll number R1 to a store that already holds the
Ann record with roll number R1 fails with the duplicate message and leaves
the store as it was. -/
theorem spec_C1_duplicate_add_rejected_witness :
    add_student true "Bob" "R1" "EE" "b@x.com" (FileContent.jsonList [annR1]) =
      ((false, "Student with roll number " ++ "R1" ++ " already exists!"),
        FileContent.jsonList [annR1]) :=
  spec_C1_duplicate_add_rejected true "Bob" "EE" "b@x.com" "R1"
    (FileContent.jsonList [annR1]) (by decide) (by decide)

/-- Claim C2: for every field tuple whose roll_no is not already present in
the stored collection (whose entries all carry readable roll numbers
different from it), add_student succeeds and a following
search_student_by_roll on that roll_no returns exactly the inserted record,
with name, roll_no, department and email equal to the inserted values. -/
theorem spec_C2_add_then_find (name roll_no department email : String)
    (fs : FileContent)
    (h : ∀ p ∈ load_students fs, p.rollOf? ≠ none ∧ p.rollOf? ≠ some roll_no) :
    (add_student true name roll_no department email fs).1 =
      (true, "Student added successfully!") ∧
    search_student_by_roll roll_no
        (add_student true name roll_no department email fs).2 =
      some (JEntry.obj [("name", name), ("roll_no", roll_no),
                        ("department", department), ("email", email)]) := by
  have hdc := dupCheck_ok_false roll_no (load_students fs) h
  have hstate : add_student true name roll_no department email fs =
      ((true, "Student added successfully!"),
        FileContent.jsonList (load_students fs ++
          [JEntry.obj [("name", name), ("roll_no", roll_no),
                       ("department", department), ("email", email)]])) := by
    simp [add_student, hdc, save_students]
  rw [hstate]
  refine ⟨rfl, ?_⟩
  have hroll : (JEntry.obj [("name", name), ("roll_no", roll_no),
      ("department", department), ("email", email)]).rollOf? = some roll_no := rfl
  unfold search_student_by_roll
  rw [show load_students (FileContent.jsonList (load_students fs ++
        [JEntry.obj [("name", name), ("roll_no", roll_no),
                     ("department", department), ("email", email)]])) =
      load_students fs ++
        JEntry.obj [("name", name), ("roll_no", roll_no),
                    ("department", department), ("email", email)] :: [] from rfl]
  rw [searchLoop_first roll_no _ (load_students fs) h hroll []]

/-- Witness for C2: on an absent store, adding the Ann record and then
searching for R1 returns exactly the inserted record. -/
theorem spec_C2_add_then_find_witness :
    (add_student true "Ann" "R1" "CS" "a@x.com" FileContent.absent).1 =
      (true, "Student added successfully!") ∧
    search_student_by_roll "R1"
        (add_student true "Ann" "R1" "CS" "a@x.com" FileContent.absent).2 =
      some (JEntry.obj [("name", "Ann"), ("roll_no", "R1"),
                        ("department", "CS"), ("email", "a@x.com")]) :=
  spec_C2_add_then_find "Ann" "R1" "CS" "a@x.com" FileContent.absent (by decide)

/-- Claim C4: starting from a stored state whose readable roll numbers are
all distinct, every exposed service operation (add, list_all, find_by_roll)
leaves the stored state with its readable roll numbers still distinct; in
particular a successful add never introduces a duplicate roll number. -/
theorem spec_C4_unique_roll_invariant (writable : Bool) (op : Op)
    (fs : FileContent) (h : (rollsOf (load_students fs)).Nodup) :
    (rollsOf (load_students (runOp writable op fs))).Nodup := by
  cases op with
  | list_all => exact h
  | find_by_roll r => exact h
  | add n r d e =>
    show (rollsOf (load_students (add_student writable n r d e fs).2)).Nodup
    cases hdc : dupCheck r (load_students fs) with
    | error m =>
      have hfs : (add_student writable n r d e fs).2 = fs := by
        simp [add_student, hdc]
      rw [hfs]
      exact h
    | ok b =>
      cases b with
      | true =>
        have hfs : (add_student writable n r d e fs).2 = fs := by
          simp [add_student, hdc]
        rw [hfs]
        exact h
      | false =>
        cases writable with
        | false =>
          have hfs : (add_student false n r d e fs).2 = fs := by
            simp [add_student, hdc, save_students]
          rw [hfs]
          exact h
        | true =>
          have hstate : (add_student true n r d e fs).2 =
              FileContent.jsonList (load_students fs ++
                [JEntry.obj [("name", n), ("roll_no", r),
                             ("department", d), ("email", e)]]) := by
            simp [add_student, hdc, save_students]
          rw [hstate]
          have hsound := dupCheck_false_sound r (load_students fs) hdc
          have hnew : (JEntry.obj [("name", n), ("roll_no", r),
              ("department", d), ("email", e)]).rollOf? = some r := rfl
          have hsplit : rollsOf (load_students fs ++
              [JEntry.obj [("name", n), ("roll_no", r),
                           ("department", d), ("email", e)]]) =
              rollsOf (load_students fs) ++ [r] := by
            simp [rollsOf, List.filterMap_append, hnew]
          rw [show load_students (FileContent.jsonList (load_students fs ++
                [JEntry.obj [("name", n), ("roll_no", r),
                             ("department", d), ("email", e)]])) =
              load_students fs ++
                [JEntry.obj [("name", n), ("roll_no", r),
                             ("department", d), ("email", e)]] from rfl]
          rw [hsplit]
          refine List.Nodup.append h (List.nodup_singleton r) ?_
          intro x hx hx'
          rw [List.mem_singleton] at hx'
          subst hx'
          obtain ⟨p, hp, hpr⟩ := List.mem_filterMap.mp hx
          exact (hsound p hp).2 hpr

/-- Witness for C4: the two-record store Ann R1 / Bob R2 has distinct roll
numbers, and it still does after adding a third record with roll number R3. -/
theorem spec_C4_unique_roll_invariant_witness :
    (rollsOf (load_students (FileContent.jsonList [annR1, bobR2]))).Nodup ∧
    (rollsOf (load_students (runOp true (Op.add "Cat" "R3" "ME" "c@x.com")
        (FileContent.jsonList [annR1, bobR2])))).Nodup :=
  ⟨by decide,
   spec_C4_unique_roll_invariant true (Op.add "Cat" "R3" "ME" "c@x.com")
     (FileContent.jsonList [annR1, bobR2]) (by decide)⟩

/-- Claim C6: search_student_by_roll scans the loaded collection linearly
and returns the first entry whose roll number equals the argument under
exact (case-sensitive) string equality; it returns none when every entry
carries a different roll number, and it also returns none when the scan hits
an entry whose subscript raises before any match. -/
theorem spec_C6_find_by_roll_first_match (roll_no : String) (fs : FileContent) :
    (∀ (pre : List JEntry) (e : JEntry) (post : List JEntry),
       load_students fs = pre ++ e :: post →
       (∀ p ∈ pre, p.rollOf? ≠ none ∧ p.rollOf? ≠ some roll_no) →
       e.rollOf? = some roll_no →
       search_student_by_roll roll_no fs = some e) ∧
    ((∀ p ∈ load_students fs, p.rollOf? ≠ none ∧ p.rollOf? ≠ some roll_no) →
       search_student_by_roll roll_no fs = none) ∧
    (∀ (pre : List JEntry) (e : JEntry) (post : List JEntry),
       load_students fs = pre ++ e :: post →
       (∀ p ∈ pre, p.rollOf? ≠ none ∧ p.rollOf? ≠ some roll_no) →
       e.rollOf? = none →
       search_student_by_roll roll_no fs = none) := by
  refine ⟨?_, ?_, ?_⟩
  · intro pre e post hload hpre he
    unfold search_student_by_roll
    rw [hload, searchLoop_first roll_no e pre hpre he post]
  · intro hall
    unfold search_student_by_roll
    rw [searchLoop_ok_none roll_no (load_students fs) hall]
  · intro pre e post hload hpre he
    unfold search_student_by_roll
    obtain ⟨m, hm⟩ := searchLoop_error roll_no e pre hpre he post
    rw [hload, hm]

/-- Witness for C6: on the store Ann R1 / Bob R2, searching R2 returns the
Bob record (found past the non-matching Ann record) and searching R9 returns
none. -/
theorem spec_C6_find_by_roll_first_match_witness :
    search_student_by_roll "R2" (FileContent.jsonList [annR1, bobR2]) =
      some bobR2 ∧
    search_student_by_roll "R9" (FileContent.jsonList [annR1, bobR2]) = none :=
  ⟨(spec_C6_find_by_roll_first_match "R2" (FileContent.jsonList [annR1, bobR2])).1
     [annR1] bobR2 [] (by decide) (by decide) (by decide),
   (spec_C6_find_by_roll_first_match "R9" (FileContent.jsonList [annR1, bobR2])).2.1
     (by decide)⟩

/-- Claim C8: every record persisted by a successful add carries exactly the
four text fields name, roll_no, department and email in that key order; one
such object is rendered by the dump with stable four-space-step indentation
and the keys in that order, and the escaping function leaves every non-ASCII
character literal rather than escaped. -/
theorem spec_C8_record_serialization (writable : Bool)
    (name roll_no department email : String) (fs : FileContent)
    (h : (add_student writable name roll_no department email fs).1.1 = true) :
    (add_student writable name roll_no department email fs).2 =
      FileContent.jsonList (load_students fs ++
        [JEntry.obj [("name", name), ("roll_no", roll_no),
                     ("department", department), ("email", email)]]) ∧
    dumpObjItem [("name", name), ("roll_no", roll_no),
                 ("department", department), ("email", email)] =
      "    \x7b\n" ++ String.intercalate ",\n"
        ["        \"name\": " ++ pyQuote name,
         "        \"roll_no\": " ++ pyQuote roll_no,
         "        \"department\": " ++ pyQuote department,
         "        \"email\": " ++ pyQuote email] ++ "\n    \x7d" ∧
    (∀ c : Char, 128 ≤ c.toNat → pyEscapeChar c = String.singleton c) := by
  refine ⟨?_, ?_, ?_⟩
  · cases hdc : dupCheck roll_no (load_students fs) with
    | error m => simp [add_student, hdc] at h
    | ok b =>
      cases b with
      | true => simp [add_student, hdc] at h
      | false =>
        cases writable with
        | false => simp [add_student, hdc, save_students] at h
        | true => simp [add_student, hdc, save_students]
  · rfl
  · intro c hc
    have h1 : ¬ c = '"' := fun hq => absurd (hq ▸ hc) (by decide)
    have h2 : ¬ c = '\\' := fun hq => absurd (hq ▸ hc) (by decide)
    have h3 : ¬ c = '\n' := fun hq => absurd (hq ▸ hc) (by decide)
    have h4 : ¬ c = '\r' := fun hq => absurd (hq ▸ hc) (by decide)
    have h5 : ¬ c = '\t' := fun hq => absurd (hq ▸ hc) (by decide)
    have h6 : ¬ c.toNat = 8 := by omega
    have h7 : ¬ c.toNat = 12 := by omega
    have h8 : ¬ c.toNat < 32 := by omega
    simp only [pyEscapeChar, if_neg h1, if_neg h2, if_neg h3, if_neg h4,
               if_neg h5, if_neg h6, if_neg h7, if_neg h8]

/-- Witness for C8: adding the Ann record to an absent store succeeds and
stores exactly the four-field object in key order name, roll_no, department,
email. -/
theorem spec_C8_record_serialization_witness :
    (add_student true "Ann" "R1" "CS" "a@x.com" FileContent.absent).2 =
      FileContent.jsonList (load_students FileContent.absent ++
        [JEntry.obj [("name", "Ann"), ("roll_no", "R1"),
                     ("department", "CS"), ("email", "a@x.com")]]) :=
  (spec_C8_record_serialization true "Ann" "R1" "CS" "a@x.com"
    FileContent.absent (by decide)).1

/-- Claim C10: add_student itself validates nothing about the field
contents: for any field values, empty strings included, whose roll_no is not
already present, it succeeds and persists the fields verbatim; the rejection
of empty fields happens only in the form-handling route, which returns the
required-fields error without touching storage or calling add_student. -/
theorem spec_C10_no_field_validation :
    (∀ (name roll_no department email : String) (fs : FileContent),
       (∀ p ∈ load_students fs, p.rollOf? ≠ none ∧ p.rollOf? ≠ some roll_no) →
       add_student true name roll_no department email fs =
         ((true, "Student added successfully!"),
           FileContent.jsonList (load_students fs ++
             [JEntry.obj [("name", name), ("roll_no", roll_no),
                          ("department", department), ("email", email)]]))) ∧
    (∀ (name roll_no department email : String) (fs : FileContent),
       (pyStrip name = "" ∨ pyStrip roll_no = "" ∨ pyStrip department = "" ∨
         pyStrip email = "") →
       add_student_page_post true name roll_no department email fs =
         ((false, "All fields are required!"), fs)) := by
  constructor
  · intro n r d e fs h
    have hdc := dupCheck_ok_false r (load_students fs) h
    simp [add_student, hdc, save_students]
  · intro n r d e fs h
    simp only [add_student_page_post]
    rcases h with h | h | h | h <;> simp [h]

/-- Witness for C10: add_student accepts a record whose four fields are all
empty strings on an absent store, while the route rejects a request whose
name field is empty without touching the store. -/
theorem spec_C10_no_field_validation_witness :
    add_student true "" "" "" "" FileContent.absent =
      ((true, "Student added successfully!"),
        FileContent.jsonList [JEntry.obj [("name", ""), ("roll_no", ""),
                                          ("department", ""), ("email", "")]]) ∧
    add_student_page_post true "" "R9" "CS" "a@x.com" FileContent.absent =
      ((false, "All fields are required!"), FileContent.absent) :=
  ⟨spec_C10_no_field_validation.1 "" "" "" "" FileContent.absent (by decide),
   spec_C10_no_field_validation.2 "" "R9" "CS" "a@x.com" FileContent.absent
     (Or.inl (by decide))⟩
